import Mathlib

/-!
Verification development for the cluster-hub plugin.

The definitions below are shallow embeddings of the TypeScript source:
`src/store.ts` (TaskStore), `src/index.ts` (TaskQueue, waitAndCollectResult,
handleTaskAck) and `src/hub-client.ts` (HubClient.handleBroadcast,
HubClient.fetchNodes).  Persistence, logging and network I/O are elided;
clocks appear as explicit `now` parameters and server responses as explicit
arguments, so every function is the pure core of the corresponding method.
-/

namespace Hub

/-! ## Sent-task store (`src/store.ts`, `TaskStore`) -/

/-- Status values of a stored (sent) task, `StoredTask.status` in `types.ts`. -/
inductive SStatus
  | sent
  | queued
  | running
  | completed
  | failed
  | cancelled
  | timeout
deriving DecidableEq, Repr

/-- Rank of a status along the order `sent < queued < running < terminal`. -/
def statusRank : SStatus → Nat
  | .sent => 0
  | .queued => 1
  | .running => 2
  | _ => 3

/-- `StoredTask` of `types.ts`: one record per outbound task. -/
structure StoredTask where
  taskId : String
  targetNodeId : String
  targetNodeName : Option String
  instruction : String
  source : String
  status : SStatus
  sentAt : Nat
  ackedAt : Option Nat := none
  startedAt : Option Nat := none
  completedAt : Option Nat := none
  result : Option String := none
  error : Option String := none
  durationMs : Option Nat := none
deriving DecidableEq, Repr

/-- `ResultPayload` of `types.ts`. -/
structure ResultPayload where
  success : Bool
  result : Option String := none
  error : Option String := none
deriving DecidableEq, Repr

/-- `TaskStore.maxHistory` (store.ts line 21). -/
def maxHistory : Nat := 200

/-- The `StoredTask` built by `TaskStore.recordSent` (store.ts lines 36-44). -/
def mkSentTask (taskId targetNodeId : String) (targetNodeName : Option String)
    (instruction source : String) (now : Nat) : StoredTask :=
  { taskId := taskId, targetNodeId := targetNodeId, targetNodeName := targetNodeName,
    instruction := instruction, source := source, status := .sent, sentAt := now }

/-- `TaskStore.trim` (store.ts lines 115-119): keep the first `maxHistory` entries. -/
def trim (tasks : List StoredTask) : List StoredTask :=
  if tasks.length > maxHistory then tasks.take maxHistory else tasks

/-- `TaskStore.recordSent` (store.ts lines 29-49): unshift the new task, then trim. -/
def recordSent (tasks : List StoredTask) (taskId targetNodeId : String)
    (targetNodeName : Option String) (instruction source : String) (now : Nat) :
    List StoredTask :=
  trim (mkSentTask taskId targetNodeId targetNodeName instruction source now :: tasks)

/-- The partial update built by `handleTaskAck` (index.ts lines 486-493): a status
plus the optional timestamps that accompany it.  `none` means the field is absent
from the update object. -/
structure TaskUpdate where
  status : SStatus
  ackedAt : Option Nat := none
  startedAt : Option Nat := none
  completedAt : Option Nat := none
deriving DecidableEq, Repr

/-- `Object.assign(task, update)` (store.ts line 55): fields present in the
update overwrite the task's fields, absent fields are kept. -/
def assignUpdate (t : StoredTask) (u : TaskUpdate) : StoredTask :=
  { t with
    status := u.status,
    ackedAt := u.ackedAt.orElse fun _ => t.ackedAt,
    startedAt := u.startedAt.orElse fun _ => t.startedAt,
    completedAt := u.completedAt.orElse fun _ => t.completedAt }

/-- The update object built by `handleTaskAck` (index.ts lines 489-491) from the
status of a `task_ack` / `task_status` frame. -/
def ackUpdate (st : SStatus) (now : Nat) : TaskUpdate :=
  { status := st,
    ackedAt := if st = .queued ∨ st = .running then some now else none,
    startedAt := if st = .running then some now else none }

/-- `TaskStore.updateStatus` (store.ts lines 52-58): find the first task with the
given id and `Object.assign` the update onto it.  No check is made against the
task's current status. -/
def updateStatus (tasks : List StoredTask) (tid : String) (u : TaskUpdate) :
    List StoredTask :=
  match tasks with
  | [] => []
  | t :: ts => if t.taskId = tid then assignUpdate t u :: ts
               else t :: updateStatus ts tid u

/-- The mutation `TaskStore.recordResult` performs on the found task
(store.ts lines 64-68). -/
def applyResult (t : StoredTask) (p : ResultPayload) (now : Nat) : StoredTask :=
  { t with
    status := if p.success then .completed else .failed,
    completedAt := some now,
    result := p.result,
    error := p.error,
    durationMs := some (now - t.sentAt) }

/-- `TaskStore.recordResult` (store.ts lines 61-71): find the first task with the
given id and overwrite its status from the payload, unconditionally. -/
def recordResult (tasks : List StoredTask) (tid : String) (p : ResultPayload)
    (now : Nat) : List StoredTask :=
  match tasks with
  | [] => []
  | t :: ts => if t.taskId = tid then applyResult t p now :: ts
               else t :: recordResult ts tid p now

/-- The terminal-status test of `TaskStore.clearCompleted` (store.ts line 91). -/
def isTerminal3 (t : StoredTask) : Bool :=
  t.status == SStatus.completed || t.status == SStatus.failed ||
    t.status == SStatus.cancelled

/-- The keep-predicate of `TaskStore.clearCompleted` (store.ts lines 90-95):
terminal tasks are kept iff `(completedAt || 0) > cutoff`. -/
def clearKeep (cutoff : Nat) (t : StoredTask) : Bool :=
  if isTerminal3 t then decide (t.completedAt.getD 0 > cutoff) else true

/-- `before || Date.now()` (store.ts line 88): an absent or zero `before` falls
back to the current time. -/
def cutoffOf (before : Option Nat) (now : Nat) : Nat :=
  match before with
  | some b => if b = 0 then now else b
  | none => now

/-- `TaskStore.clearCompleted` (store.ts lines 87-99): returns the number of
cleared tasks and the remaining list. -/
def clearCompleted (tasks : List StoredTask) (before : Option Nat) (now : Nat) :
    Nat × List StoredTask :=
  let cutoff := cutoffOf before now
  let kept := tasks.filter (clearKeep cutoff)
  (tasks.length - kept.length, kept)

/-! ## Agent result harvest (`src/index.ts`, `waitAndCollectResult`) -/

/-- One content block of a chat-history message. -/
structure Block where
  type : String
  text : String
deriving DecidableEq, Repr

/-- Message content is either a plain string or a list of blocks. -/
inductive MsgContent
  | str (s : String)
  | blocks (bs : List Block)
deriving DecidableEq, Repr

/-- A `chat.history` message. -/
structure ChatMsg where
  role : String
  content : MsgContent
deriving DecidableEq, Repr

/-- Text contributed by one block (index.ts lines 163-165): only blocks with
`type == "text"` and truthy `text` contribute, each followed by a newline. -/
def blockText (b : Block) : String :=
  if b.type = "text" ∧ b.text ≠ "" then b.text ++ "\n" else ""

/-- Text contributed by one message (index.ts lines 160-167). -/
def msgText (m : ChatMsg) : String :=
  match m.content with
  | .str s => s ++ "\n"
  | .blocks bs => String.join (bs.map blockText)

/-- The `resultText` accumulation of `waitAndCollectResult` (index.ts lines
157-167): text of the messages whose role is `"assistant"`, in history order. -/
def collectText (msgs : List ChatMsg) : String :=
  String.join ((msgs.filter fun m => m.role == "assistant").map msgText)

/-- The placeholder substituted for an empty harvest (index.ts line 170). -/
def taskDonePlaceholder : String := "(任务完成，无文本输出)"

/-- The success path of `waitAndCollectResult` (index.ts line 170):
`{ success: true, result: resultText.trim() || placeholder }`. -/
def harvestResult (msgs : List ChatMsg) : ResultPayload :=
  let t := (collectText msgs).trim
  { success := true, result := some (if t = "" then taskDonePlaceholder else t) }

/-! ## Hub client broadcast handling (`src/hub-client.ts`, `handleBroadcast`) -/

/-- The `payload.node` object of a `node_online` broadcast. -/
structure HubNodeRef where
  id : String
deriving DecidableEq, Repr

/-- The payload of a `broadcast` frame, as inspected by `handleBroadcast`:
`node_online` carries the node under `payload.node.id`, `node_offline` under
`payload.nodeId`. -/
structure BroadcastPayload where
  action : String
  node : Option HubNodeRef := none
  nodeId : Option String := none
deriving DecidableEq, Repr

/-- A `broadcast` wire frame restricted to the fields `handleBroadcast` reads. -/
structure BroadcastMsg where
  channel : Option String
  payload : Option BroadcastPayload
deriving DecidableEq, Repr

/-- The part of `HubClient` state that `handleBroadcast` touches. -/
structure ClientCacheState where
  nodesCache : List String
  changeSeq : Nat
deriving DecidableEq, Repr

/-- Lifecycle callbacks fired by `handleBroadcast` (`onNodeOnline` / `onNodeOffline`). -/
inductive LifeEvent
  | online (nodeId : String)
  | offline (nodeId : String)
deriving DecidableEq, Repr

/-- The membership actions of hub-client.ts line 543. -/
def memberActions : List String :=
  ["child_registered", "child_unregistered", "child_departed", "child_arrived",
   "reparented"]

/-- `HubClient.handleBroadcast` (hub-client.ts lines 524-549): on a system-channel
lifecycle broadcast, empty the node cache, increment `changeSeq`, and fire the
matching callback.  Returns the new state and the callbacks fired. -/
def handleBroadcast (s : ClientCacheState) (m : BroadcastMsg) :
    ClientCacheState × List LifeEvent :=
  if m.channel = some "system" then
    match m.payload with
    | none => (s, [])
    | some p =>
      if p.action = "node_online" then
        match p.node with
        | some n =>
          if n.id = "" then (s, [])
          else ({ nodesCache := [], changeSeq := s.changeSeq + 1 }, [.online n.id])
        | none => (s, [])
      else if p.action = "node_offline" then
        match p.nodeId with
        | some nid =>
          if nid = "" then (s, [])
          else ({ nodesCache := [], changeSeq := s.changeSeq + 1 }, [.offline nid])
        | none => (s, [])
      else if p.action ∈ memberActions then
        ({ nodesCache := [], changeSeq := s.changeSeq + 1 }, [])
      else (s, [])
  else (s, [])

/-- A well-formed system-channel lifecycle broadcast: one of the seven actions,
carrying the node id where the protocol puts it. -/
def IsLifecycle (m : BroadcastMsg) : Prop :=
  m.channel = some "system" ∧
    ∃ p, m.payload = some p ∧
      ((p.action = "node_online" ∧ ∃ n, p.node = some n ∧ n.id ≠ "") ∨
       (p.action = "node_offline" ∧ ∃ nid, p.nodeId = some nid ∧ nid ≠ "") ∨
       p.action ∈ memberActions)

/-- The `node_online` broadcast frame for a node. -/
def onlineMsg (a : String) : BroadcastMsg :=
  { channel := some "system",
    payload := some { action := "node_online", node := some ⟨a⟩ } }

/-- The `node_offline` broadcast frame for a node. -/
def offlineMsg (a : String) : BroadcastMsg :=
  { channel := some "system",
    payload := some { action := "node_offline", nodeId := some a } }

/-! ## Hub client node cache (`src/hub-client.ts`, `fetchNodes`) -/

/-- `HubClient.CACHE_TTL_MS` (hub-client.ts line 38). -/
def CACHE_TTL_MS : Nat := 15000

/-- The node-cache part of `HubClient` state. -/
structure NodesState where
  nodesCache : List String
  nodesCacheTime : Nat
deriving DecidableEq, Repr

/-- Result of a `fetchNodes` call: the returned list, the new cache state, and
whether an HTTP GET was issued. -/
structure FetchOutcome where
  result : List String
  state : NodesState
  requested : Bool
deriving DecidableEq, Repr

/-- `HubClient.fetchNodes` (hub-client.ts lines 262-271).  `server` is the node
list a GET `/api/nodes` would return. -/
def fetchNodes (s : NodesState) (force : Bool) (now : Nat) (server : List String) :
    FetchOutcome :=
  if force = false ∧ 0 < s.nodesCache.length ∧ now - s.nodesCacheTime < CACHE_TTL_MS
  then { result := s.nodesCache, state := s, requested := false }
  else { result := server, state := { nodesCache := server, nodesCacheTime := now },
         requested := true }

/-! ## Task queue (`src/index.ts`, `TaskQueue`)

The queue is modelled as a labelled transition system.  Each asynchronous
suspension point of the source becomes its own action: `enqueue` runs
`TaskQueue.enqueue` (and, slot permitting, the synchronous prefix of
`startTask` up to its first `await`); `dispatchOk` / `dispatchFail` resume
`startTask` when `dispatchTaskToAgent` resolves or rejects; `waitDone` resumes
it when `waitAndCollectResult` resolves; `cancel` runs `TaskQueue.cancel`;
`setMax` runs `TaskQueue.setMaxConcurrent`.  Frames are the `sendWS` /
`sendResult` calls the source makes, in order. -/

/-- Status values of a `QueuedTask` (`types.ts`). -/
inductive QStatus
  | queued
  | running
  | completed
  | failed
  | cancelled
deriving DecidableEq, Repr

/-- `QueuedTask` of `types.ts`. -/
structure QTask where
  taskId : String
  fromNodeId : String
  instruction : String
  priority : String
  receivedAt : Nat
  status : QStatus
  startedAt : Option Nat := none
  completedAt : Option Nat := none
  sessionKey : Option String := none
  result : Option String := none
  error : Option String := none
deriving DecidableEq, Repr

/-- The two ack statuses a `task_ack` frame can carry. -/
inductive AckKind
  | ackQueued
  | ackRunning
deriving DecidableEq, Repr

/-- Frames emitted by the task queue over the hub socket. -/
inductive Frame
  | taskAck (taskId toNode : String) (k : AckKind) (position : Option Nat)
  | resultFrame (taskId toNode : String) (p : ResultPayload)
deriving DecidableEq, Repr

/-- The task id a frame refers to (the wire `id` field). -/
def Frame.frameTaskId : Frame → String
  | .taskAck tid _ _ _ => tid
  | .resultFrame tid _ _ => tid

/-- `Map.get` on a task pool keyed by `taskId`. -/
def mapGet (m : List QTask) (tid : String) : Option QTask :=
  m.find? fun t => t.taskId == tid

/-- `Map.has` on a task pool. -/
def mapHas (m : List QTask) (tid : String) : Bool :=
  (mapGet m tid).isSome

/-- `Map.set` on a task pool: replace in place if the key is present, otherwise
append (JS `Map` insertion order). -/
def mapSet (m : List QTask) (t : QTask) : List QTask :=
  if mapHas m t.taskId then m.map fun x => if x.taskId == t.taskId then t else x
  else m ++ [t]

/-- `Map.delete` on a task pool. -/
def mapDelete (m : List QTask) (tid : String) : List QTask :=
  m.filter fun t => t.taskId != tid

/-- The completed-ring cap of `TaskQueue` (index.ts line 265). -/
def MAX_COMPLETED : Nat := 50

/-- The whole `TaskQueue` state (index.ts lines 187-194). -/
structure QueueState where
  maxConcurrent : Nat
  queue : List QTask
  dispatching : List QTask
  inflight : List QTask
  completed : List QTask
deriving DecidableEq, Repr

/-- A fresh `TaskQueue` (index.ts line 188: default `maxConcurrent = 3`). -/
def initQueue : QueueState :=
  { maxConcurrent := 3, queue := [], dispatching := [], inflight := [],
    completed := [] }

/-- `setMaxConcurrent`'s clamp (index.ts line 197): `Math.max(1, Math.min(n, 10))`. -/
def clampMax (n : Nat) : Nat := max 1 (min n 10)

/-- The `QueuedTask` built by `TaskQueue.enqueue` (index.ts lines 206-210). -/
def mkQueuedTask (tid fromN ins pri : String) (now : Nat) : QTask :=
  { taskId := tid, fromNodeId := fromN, instruction := ins, priority := pri,
    receivedAt := now, status := .queued }

/-- `task.status = 'running'; task.startedAt = Date.now()` (index.ts lines 227-228). -/
def runState (t : QTask) (now : Nat) : QTask :=
  { t with status := QStatus.running, startedAt := some now }

/-- `task.sessionKey = sessionKey` (index.ts line 243). -/
def setSessionKey (t : QTask) (sk : String) : QTask :=
  { t with sessionKey := some sk }

/-- The task mutation performed when the agent wait resolves (index.ts lines
252-254). -/
def applyWait (t : QTask) (w : ResultPayload) : QTask :=
  { t with
    status := if w.success then QStatus.completed else QStatus.failed,
    result := w.result, error := w.error }

/-- The task mutation of the dispatch-failure catch block (index.ts lines
256-257). -/
def applyDispatchFail (t : QTask) (err : String) : QTask :=
  { t with status := QStatus.failed, error := some err }

/-- `task.completedAt = Date.now()` (index.ts line 262). -/
def stampCompleted (t : QTask) (now : Nat) : QTask :=
  { t with completedAt := some now }

/-- The mutation `TaskQueue.cancel` performs on a spliced-out waiting task
(index.ts lines 289-290). -/
def markCancelled (t : QTask) (now : Nat) : QTask :=
  { t with status := QStatus.cancelled, completedAt := some now }

theorem runState_taskId (t : QTask) (now : Nat) :
    (runState t now).taskId = t.taskId := rfl

theorem setSessionKey_taskId (t : QTask) (sk : String) :
    (setSessionKey t sk).taskId = t.taskId := rfl

/-- The synchronous prefix of `TaskQueue.startTask` (index.ts lines 226-237):
mark running, occupy a dispatch slot, send `task_ack{running}`. -/
def startTaskSync (s : QueueState) (t : QTask) (now : Nat) :
    QueueState × List Frame :=
  ({ s with dispatching := mapSet s.dispatching (runState t now) },
   [Frame.taskAck t.taskId t.fromNodeId AckKind.ackRunning none])

/-- `TaskQueue.enqueue` (index.ts lines 205-224): start immediately if a slot is
free, otherwise append to the waiting queue and send `task_ack{queued, position}`. -/
def enqueueFn (s : QueueState) (t : QTask) (now : Nat) : QueueState × List Frame :=
  if s.dispatching.length < s.maxConcurrent then startTaskSync s t now
  else ({ s with queue := s.queue ++ [t] },
        [Frame.taskAck t.taskId t.fromNodeId AckKind.ackQueued
          (some (s.queue.length + 1))])

/-- `TaskQueue.dequeue` (index.ts lines 278-283): while the queue is non-empty
and a slot is free, shift the next task and run the synchronous prefix of
`startTask` on it.  Returns the remaining queue, the new dispatching pool, and
the acks emitted. -/
def dequeueLoop (now maxC : Nat) : List QTask → List QTask →
    List QTask × List QTask × List Frame
  | [], d => ([], d, [])
  | t :: rest, d =>
    if d.length < maxC then
      let r := dequeueLoop now maxC rest (mapSet d (runState t now))
      (r.1, r.2.1, Frame.taskAck t.taskId t.fromNodeId AckKind.ackRunning none
        :: r.2.2)
    else (t :: rest, d, [])

/-- The completed-ring push of `startTask` finalization (index.ts lines 264-265):
unshift, then pop the last entry if over the cap. -/
def pushCompleted (completed : List QTask) (t : QTask) : List QTask :=
  let c := t :: completed
  if c.length > MAX_COMPLETED then c.dropLast else c

/-- The finalization tail of `startTask` (index.ts lines 262-275): stamp
`completedAt`, leave inflight, push onto the completed ring, send the `result`
frame, then dequeue. -/
def finalizeTask (s : QueueState) (t : QTask) (now : Nat) :
    QueueState × List Frame :=
  let t' := stampCompleted t now
  let inf := mapDelete s.inflight t'.taskId
  let comp := pushCompleted s.completed t'
  let p : ResultPayload :=
    { success := t'.status == QStatus.completed, result := t'.result,
      error := t'.error }
  let r := dequeueLoop now s.maxConcurrent s.queue s.dispatching
  ({ s with queue := r.1, dispatching := r.2.1, inflight := inf, completed := comp },
   Frame.resultFrame t'.taskId t'.fromNodeId p :: r.2.2)

/-- Resumption of `startTask` when `dispatchTaskToAgent` resolves (index.ts
lines 242-248): record the session key, free the dispatch slot, move to
inflight, dequeue. -/
def dispatchOkFn (s : QueueState) (tid sk : String) (now : Nat) :
    QueueState × List Frame :=
  match mapGet s.dispatching tid with
  | none => (s, [])
  | some t =>
    let t' := setSessionKey t sk
    let d := mapDelete s.dispatching tid
    let inf := mapSet s.inflight t'
    let r := dequeueLoop now s.maxConcurrent s.queue d
    ({ s with queue := r.1, dispatching := r.2.1, inflight := inf }, r.2.2)

/-- Resumption of `startTask` when `dispatchTaskToAgent` rejects (index.ts lines
255-260 and the shared finalization): mark failed, free the slot, finalize. -/
def dispatchFailFn (s : QueueState) (tid err : String) (now : Nat) :
    QueueState × List Frame :=
  match mapGet s.dispatching tid with
  | none => (s, [])
  | some t =>
    finalizeTask { s with dispatching := mapDelete s.dispatching tid }
      (applyDispatchFail t err) now

/-- Resumption of `startTask` when `waitAndCollectResult` resolves (index.ts
lines 251-254 and the shared finalization). -/
def waitDoneFn (s : QueueState) (tid : String) (w : ResultPayload) (now : Nat) :
    QueueState × List Frame :=
  match mapGet s.inflight tid with
  | none => (s, [])
  | some t => finalizeTask s (applyWait t w) now

/-- The error message `TaskQueue.cancel` puts in the synthesized result frame
(index.ts line 292). -/
def cancelMessage : String := "任务已被取消"

/-- `Array.findIndex` + `splice` on the waiting queue: remove the first task
with the given id. -/
def removeFirst (tid : String) : List QTask → List QTask
  | [] => []
  | t :: ts => if t.taskId == tid then ts else t :: removeFirst tid ts

/-- The first queued task with the given id, if any. -/
def qfind (tid : String) (l : List QTask) : Option QTask :=
  l.find? fun t => t.taskId == tid

/-- Result of a `TaskQueue.cancel` call. -/
structure CancelOutcome where
  ok : Bool
  state : QueueState
  frames : List Frame
  removed : Option QTask
deriving DecidableEq, Repr

/-- `TaskQueue.cancel` (index.ts lines 285-303): a waiting task is spliced out,
marked cancelled and answered with a synthesized failure result; a dispatching
or inflight task is "cancelled" only if it already has a `sessionKey` (the
session is deleted externally, the state is untouched); otherwise `false`. -/
def cancelFn (s : QueueState) (tid : String) (now : Nat) : CancelOutcome :=
  match qfind tid s.queue with
  | some t =>
    { ok := true,
      state := { s with queue := removeFirst tid s.queue },
      frames := [Frame.resultFrame tid t.fromNodeId
        { success := false, result := none, error := some cancelMessage }],
      removed := some (markCancelled t now) }
  | none =>
    match (mapGet s.dispatching tid).orElse (fun _ => mapGet s.inflight tid) with
    | some r =>
      if r.sessionKey.isSome then
        { ok := true, state := s, frames := [], removed := none }
      else
        { ok := false, state := s, frames := [], removed := none }
    | none => { ok := false, state := s, frames := [], removed := none }

/-- The events the queue reacts to.  `now` parameters are the clock readings at
the corresponding suspension points. -/
inductive QAction
  | enqueue (tid fromN ins pri : String) (now : Nat)
  | dispatchOk (tid sk : String) (now : Nat)
  | dispatchFail (tid err : String) (now : Nat)
  | waitDone (tid : String) (w : ResultPayload) (now : Nat)
  | cancel (tid : String) (now : Nat)
  | setMax (n : Nat)
deriving DecidableEq, Repr

/-- One step of the queue: dispatch on the action. -/
def stepFn (s : QueueState) : QAction → QueueState × List Frame
  | .enqueue tid fromN ins pri now => enqueueFn s (mkQueuedTask tid fromN ins pri now) now
  | .dispatchOk tid sk now => dispatchOkFn s tid sk now
  | .dispatchFail tid err now => dispatchFailFn s tid err now
  | .waitDone tid w now => waitDoneFn s tid w now
  | .cancel tid now =>
    let c := cancelFn s tid now
    (c.state, c.frames)
  | .setMax n => ({ s with maxConcurrent := clampMax n }, [])

/-- Run a sequence of actions, accumulating the emitted frames in order. -/
def runQueue (s : QueueState) : List QAction → QueueState × List Frame
  | [] => (s, [])
  | a :: rest =>
    let r := stepFn s a
    let r2 := runQueue r.1 rest
    (r2.1, r.2 ++ r2.2)

/-- The dispatch-slot bound: the claim's invariant `|dispatching| ≤ maxConcurrent`. -/
def DispatchInv (s : QueueState) : Prop :=
  s.dispatching.length ≤ s.maxConcurrent

/-- A `setMax` action is non-shrinking in a state if the new clamped bound still
covers the tasks currently dispatching.  All other actions are unrestricted. -/
def okAct (s : QueueState) : QAction → Bool
  | .setMax n => decide (s.dispatching.length ≤ clampMax n)
  | _ => true

/-- `okAct` holds along a whole run. -/
def okActs (s : QueueState) : List QAction → Bool
  | [] => true
  | a :: rest => okAct s a && okActs (stepFn s a).1 rest

/-- The full life of one task through `startTask` (index.ts lines 226-276),
as the composition of its resumptions: either dispatch succeeds and the agent
wait later resolves, or dispatch fails. -/
inductive DispatchOutcome
  | ok (sk : String) (w : ResultPayload) (tDispatch tDone : Nat)
  | fail (err : String) (tFail : Nat)
deriving DecidableEq, Repr

/-- `startTask` from entry to finalization for one task, given the outcome of
its agent dispatch; returns the final state and all frames emitted in order. -/
def startTaskFull (s : QueueState) (t : QTask) (now : Nat) (o : DispatchOutcome) :
    QueueState × List Frame :=
  let r1 := startTaskSync s t now
  match o with
  | .ok sk w t2 t3 =>
    let r2 := dispatchOkFn r1.1 t.taskId sk t2
    let r3 := waitDoneFn r2.1 t.taskId w t3
    (r3.1, r1.2 ++ r2.2 ++ r3.2)
  | .fail err t2 =>
    let r2 := dispatchFailFn r1.1 t.taskId err t2
    (r2.1, r1.2 ++ r2.2)

/-- Is this action an `enqueue` of the given task id? -/
def isEnqueueOf (tid : String) : QAction → Bool
  | .enqueue tid2 _ _ _ _ => tid2 == tid
  | _ => false

/-- Is this frame a `task_ack{running}` for the given task id? -/
def isRunningAckOf (tid : String) : Frame → Bool
  | .taskAck tid2 _ AckKind.ackRunning _ => tid2 == tid
  | _ => false

/-! ## Concrete fixtures -/

/-- A stored task that has reached `running`. -/
def exTaskRunning : StoredTask :=
  { taskId := "t1", targetNodeId := "n1", targetNodeName := none,
    instruction := "ls", source := "remote", status := .running, sentAt := 10,
    ackedAt := some 11, startedAt := some 11 }

/-- A terminal stored task whose `completedAt` lies ahead of one clock reading
and behind a later one (e.g. loaded from a `tasks.json` written by a different
clock). -/
def exTaskDone : StoredTask :=
  { taskId := "t2", targetNodeId := "n1", targetNodeName := none,
    instruction := "x", source := "remote", status := .completed, sentAt := 5,
    completedAt := some 100 }

/-- A queue fixture: one waiting task. -/
def exQState : QueueState :=
  { initQueue with queue := [mkQueuedTask "t9" "parent" "ls" "normal" 5] }

/-! ## Helper lemmas: store -/

theorem assignUpdate_status (t : StoredTask) (u : TaskUpdate) :
    (assignUpdate t u).status = u.status := rfl

theorem updateStatus_find (ts : List StoredTask) (tid : String) (u : TaskUpdate)
    (h : ∃ t ∈ ts, t.taskId = tid) :
    ∃ t', (updateStatus ts tid u).find? (fun x => x.taskId == tid) = some t' ∧
      t'.status = u.status := by
  induction ts with
  | nil => simp at h
  | cons t ts ih =>
    by_cases htid : t.taskId = tid
    · refine ⟨assignUpdate t u, ?_, rfl⟩
      have hkey : (assignUpdate t u).taskId = tid := htid
      simp [updateStatus, htid, List.find?, hkey]
    · obtain ⟨t0, hmem, ht0⟩ := h
      rcases List.mem_cons.1 hmem with rfl | hmem'
      · exact absurd ht0 htid
      · obtain ⟨t', hfind, hstat⟩ := ih ⟨t0, hmem', ht0⟩
        refine ⟨t', ?_, hstat⟩
        simpa [updateStatus, htid, List.find?_cons, htid] using hfind

theorem recordResult_find (ts : List StoredTask) (tid : String) (p : ResultPayload)
    (now : Nat) (h : ∃ t ∈ ts, t.taskId = tid) :
    ∃ t', (recordResult ts tid p now).find? (fun x => x.taskId == tid) = some t' ∧
      t'.status = (if p.success then SStatus.completed else SStatus.failed) := by
  induction ts with
  | nil => simp at h
  | cons t ts ih =>
    by_cases htid : t.taskId = tid
    · refine ⟨applyResult t p now, ?_, rfl⟩
      have hkey : (applyResult t p now).taskId = tid := htid
      simp [recordResult, htid, List.find?, hkey]
    · obtain ⟨t0, hmem, ht0⟩ := h
      rcases List.mem_cons.1 hmem with rfl | hmem'
      · exact absurd ht0 htid
      · obtain ⟨t', hfind, hstat⟩ := ih ⟨t0, hmem', ht0⟩
        refine ⟨t', ?_, hstat⟩
        simpa [recordResult, htid, List.find?_cons, htid] using hfind

/-! ## C1 — status monotonicity of the sent-task store -/

/-- C1 counterexample: the spec claims an update that moves the status
backwards along `sent < queued < running < terminal` is discarded.  On a task
whose stored status is `running`, the `task_ack{queued}` update built by
`handleTaskAck` is applied: the stored status regresses to `queued` instead of
staying `running`. -/
theorem C1_counterexample :
    statusRank SStatus.queued < statusRank SStatus.running ∧
    updateStatus [exTaskRunning] "t1" (ackUpdate SStatus.queued 12)
      = [{ exTaskRunning with status := SStatus.queued, ackedAt := some 12 }] ∧
    ({ exTaskRunning with status := SStatus.queued, ackedAt := some 12 }).status
      ≠ exTaskRunning.status := by
  refine ⟨by decide, by decide, by decide⟩

/-- C1 (amended): `TaskStore.updateStatus` and `TaskStore.recordResult` apply
their update unconditionally.  Whenever the task is present, after
`updateStatus` its stored status equals the update's status, and after
`recordResult` it equals `completed`/`failed` according to `success` — even
when the new status lies backwards along the order
`sent < queued < running < terminal`; no regression is discarded. -/
theorem C1_updates_unconditional (ts : List StoredTask) (tid : String)
    (u : TaskUpdate) (p : ResultPayload) (now : Nat)
    (h : ∃ t ∈ ts, t.taskId = tid) :
    (∃ t', (updateStatus ts tid u).find? (fun x => x.taskId == tid) = some t' ∧
      t'.status = u.status) ∧
    (∃ t', (recordResult ts tid p now).find? (fun x => x.taskId == tid) = some t' ∧
      t'.status = (if p.success then SStatus.completed else SStatus.failed)) :=
  ⟨updateStatus_find ts tid u h, recordResult_find ts tid p now h⟩

/-- Witness for `C1_updates_unconditional` at a concrete store. -/
theorem C1_updates_unconditional_witness :
    (∃ t ∈ [exTaskRunning], t.taskId = "t1") ∧
    ((∃ t', (updateStatus [exTaskRunning] "t1" (ackUpdate SStatus.queued 12)).find?
        (fun x => x.taskId == "t1") = some t' ∧
      t'.status = (ackUpdate SStatus.queued 12).status) ∧
    (∃ t', (recordResult [exTaskRunning] "t1" ⟨true, none, none⟩ 20).find?
        (fun x => x.taskId == "t1") = some t' ∧
      t'.status = (if (true : Bool) then SStatus.completed else SStatus.failed))) :=
  ⟨by decide,
   C1_updates_unconditional [exTaskRunning] "t1" (ackUpdate SStatus.queued 12)
     ⟨true, none, none⟩ 20 (by decide)⟩

/-! ## C6 — 200-task cap of the sent-task store -/

/-- C6: the sent-task store caps its history at 200 most-recent-first entries.
`recordSent` puts the new task first, the length afterwards is
`min (n + 1) 200`, and when the store already holds 200 tasks the new task
becomes the head while the oldest (last) entry is evicted. -/
theorem C6_recordSent_cap (ts : List StoredTask) (tid nid : String)
    (nm : Option String) (ins src : String) (now : Nat) :
    (recordSent ts tid nid nm ins src now).length = min (ts.length + 1) maxHistory ∧
    (recordSent ts tid nid nm ins src now).head?
      = some (mkSentTask tid nid nm ins src now) ∧
    (ts.length = maxHistory →
      recordSent ts tid nid nm ins src now
        = mkSentTask tid nid nm ins src now :: ts.dropLast) := by
  unfold recordSent trim
  by_cases h : (mkSentTask tid nid nm ins src now :: ts).length > maxHistory
  · rw [if_pos h]
    simp only [List.length_cons] at h
    refine ⟨?_, ?_, ?_⟩
    · simp [List.length_take]
      omega
    · have hm : maxHistory = 199 + 1 := rfl
      rw [hm, List.take_succ_cons]
      rfl
    · intro hlen
      have hm : maxHistory = 199 + 1 := rfl
      rw [hm, List.take_succ_cons, List.dropLast_eq_take]
      rw [hlen, hm]
  · rw [if_neg h]
    simp only [List.length_cons, gt_iff_lt, not_lt] at h
    refine ⟨?_, rfl, ?_⟩
    · simp only [List.length_cons]
      omega
    · intro hlen
      exfalso
      rw [hlen] at h
      have hm : maxHistory = 200 := rfl
      omega

/-- Witness for `C6_recordSent_cap` on a store that already holds 200 tasks. -/
theorem C6_recordSent_cap_witness :
    ((List.replicate 200 exTaskDone).length = maxHistory) ∧
    ((recordSent (List.replicate 200 exTaskDone) "t3" "n1" none "y" "remote" 7).length
        = min ((List.replicate 200 exTaskDone).length + 1) maxHistory ∧
      (recordSent (List.replicate 200 exTaskDone) "t3" "n1" none "y" "remote" 7).head?
        = some (mkSentTask "t3" "n1" none "y" "remote" 7) ∧
      ((List.replicate 200 exTaskDone).length = maxHistory →
        recordSent (List.replicate 200 exTaskDone) "t3" "n1" none "y" "remote" 7
          = mkSentTask "t3" "n1" none "y" "remote" 7
              :: (List.replicate 200 exTaskDone).dropLast)) :=
  ⟨by rw [List.length_replicate]; rfl, C6_recordSent_cap (List.replicate 200 exTaskDone) "t3" "n1" none "y" "remote" 7⟩

/-! ## C7 — idempotence of clearCompleted -/

/-- C7 counterexample: with `before` omitted the cutoff is re-evaluated as the
current time on every call.  On a store holding a completed task with
`completedAt = 100`, a first `clearCompleted` at time 50 clears nothing, and a
second call with the same (omitted) `before` at time 150 clears that task and
returns 1, not 0 — the second call does not leave the list unchanged. -/
theorem C7_counterexample :
    (clearCompleted [exTaskDone] none 50).1 = 0 ∧
    (clearCompleted (clearCompleted [exTaskDone] none 50).2 none 150).1 = 1 ∧
    (clearCompleted (clearCompleted [exTaskDone] none 50).2 none 150).2
      ≠ (clearCompleted [exTaskDone] none 50).2 := by
  refine ⟨by decide, by decide, by decide⟩

/-- C7 (amended): for any explicitly supplied non-zero `before`, the cutoff is
fixed, so a second `clearCompleted` with the same `before` and no intervening
mutations returns 0 and leaves the task list unchanged.  (When `before` is
omitted or 0, the source falls back to `Date.now()`, so the cutoff moves with
the clock and the second call may clear more.) -/
theorem C7_clear_idempotent (ts : List StoredTask) (b now1 now2 : Nat)
    (hb : b ≠ 0) :
    (clearCompleted (clearCompleted ts (some b) now1).2 (some b) now2).1 = 0 ∧
    (clearCompleted (clearCompleted ts (some b) now1).2 (some b) now2).2
      = (clearCompleted ts (some b) now1).2 := by
  have hc : ∀ now, cutoffOf (some b) now = b := fun now => by
    simp [cutoffOf, hb]
  have hfix : (ts.filter (clearKeep b)).filter (clearKeep b)
      = ts.filter (clearKeep b) :=
    List.filter_eq_self.2 fun a ha => List.of_mem_filter ha
  constructor
  · simp [clearCompleted, hc, hfix]
  · simp [clearCompleted, hc, hfix]

/-- Witness for `C7_clear_idempotent` at a concrete store and cutoff. -/
theorem C7_clear_idempotent_witness :
    ((7 : Nat) ≠ 0) ∧
    ((clearCompleted (clearCompleted [exTaskDone] (some 7) 1).2 (some 7) 2).1 = 0 ∧
     (clearCompleted (clearCompleted [exTaskDone] (some 7) 1).2 (some 7) 2).2
       = (clearCompleted [exTaskDone] (some 7) 1).2) :=
  ⟨by decide, C7_clear_idempotent [exTaskDone] 7 1 2 (by decide)⟩

/-! ## C8 — result harvest of waitAndCollectResult -/

/-- C8: on the success path, `waitAndCollectResult` returns `success: true`
whose `result` is the newline-joined concatenation, in history order, of the
text contributed by the messages whose role is `"assistant"` (`collectText`),
stripped of leading and trailing whitespace; when that text is empty the
non-empty placeholder is substituted, so the returned string is never empty. -/
theorem C8_harvest (msgs : List ChatMsg) :
    ∃ s, harvestResult msgs = { success := true, result := some s, error := none } ∧
      s = (if (collectText msgs).trim = "" then taskDonePlaceholder
           else (collectText msgs).trim) ∧
      s ≠ "" := by
  refine ⟨_, rfl, rfl, ?_⟩
  by_cases h : (collectText msgs).trim = ""
  · simp [h, taskDonePlaceholder]
  · simp [h]

/-! ## C5 — change sequence on lifecycle broadcasts -/

/-- C5: `handleBroadcast` increments `changeSeq` by exactly one and empties the
node cache on every well-formed system-channel lifecycle broadcast; and
observing `node_online{A}` followed by `node_offline{A}` advances `changeSeq`
by exactly 2, empties the cache at both steps, and fires `onNodeOnline(A)` and
`onNodeOffline(A)` exactly once each. -/
theorem C5_changeSeq (s : ClientCacheState) (m : BroadcastMsg) (a : String)
    (hm : IsLifecycle m) (ha : a ≠ "") :
    ((handleBroadcast s m).1.changeSeq = s.changeSeq + 1 ∧
     (handleBroadcast s m).1.nodesCache = []) ∧
    ((handleBroadcast s (onlineMsg a)).2 = [LifeEvent.online a] ∧
     (handleBroadcast s (onlineMsg a)).1.changeSeq = s.changeSeq + 1 ∧
     (handleBroadcast s (onlineMsg a)).1.nodesCache = [] ∧
     (handleBroadcast (handleBroadcast s (onlineMsg a)).1 (offlineMsg a)).2
       = [LifeEvent.offline a] ∧
     (handleBroadcast (handleBroadcast s (onlineMsg a)).1 (offlineMsg a)).1.changeSeq
       = s.changeSeq + 2 ∧
     (handleBroadcast (handleBroadcast s (onlineMsg a)).1 (offlineMsg a)).1.nodesCache
       = []) := by
  constructor
  · obtain ⟨hch, p, hp, hcase⟩ := hm
    rcases hcase with ⟨hact, n, hn, hid⟩ | ⟨hact, nid, hn, hid⟩ | hmem
    · simp [handleBroadcast, hch, hp, hact, hn, hid]
    · have hne : p.action ≠ "node_online" := by rw [hact]; decide
      simp [handleBroadcast, hch, hp, hact, hn, hid, hne]
    · have h1 : p.action ≠ "node_online" := by
        intro h; rw [h] at hmem; simp [memberActions] at hmem
      have h2 : p.action ≠ "node_offline" := by
        intro h; rw [h] at hmem; simp [memberActions] at hmem
      simp [handleBroadcast, hch, hp, h1, h2, hmem]
  · refine ⟨?_, ?_, ?_, ?_, ?_, ?_⟩ <;>
      simp [handleBroadcast, onlineMsg, offlineMsg, ha, memberActions]

/-- Witness for `C5_changeSeq` at a concrete state and frames. -/
theorem C5_changeSeq_witness :
    IsLifecycle (onlineMsg "A") ∧ ("A" : String) ≠ "" ∧
    (((handleBroadcast ⟨["x"], 7⟩ (onlineMsg "A")).1.changeSeq = 7 + 1 ∧
      (handleBroadcast ⟨["x"], 7⟩ (onlineMsg "A")).1.nodesCache = []) ∧
     ((handleBroadcast ⟨["x"], 7⟩ (onlineMsg "A")).2 = [LifeEvent.online "A"] ∧
      (handleBroadcast ⟨["x"], 7⟩ (onlineMsg "A")).1.changeSeq = 7 + 1 ∧
      (handleBroadcast ⟨["x"], 7⟩ (onlineMsg "A")).1.nodesCache = [] ∧
      (handleBroadcast (handleBroadcast ⟨["x"], 7⟩ (onlineMsg "A")).1
          (offlineMsg "A")).2 = [LifeEvent.offline "A"] ∧
      (handleBroadcast (handleBroadcast ⟨["x"], 7⟩ (onlineMsg "A")).1
          (offlineMsg "A")).1.changeSeq = 7 + 2 ∧
      (handleBroadcast (handleBroadcast ⟨["x"], 7⟩ (onlineMsg "A")).1
          (offlineMsg "A")).1.nodesCache = [])) :=
  ⟨⟨rfl, _, rfl, Or.inl ⟨rfl, _, rfl, by decide⟩⟩, by decide,
   C5_changeSeq ⟨["x"], 7⟩ (onlineMsg "A") "A"
     ⟨rfl, _, rfl, Or.inl ⟨rfl, _, rfl, by decide⟩⟩ (by decide)⟩

/-! ## C9 — fetchNodes TTL cache -/

/-- C9 counterexample: a forced fetch at time 100 succeeds and caches the empty
node list the server returned; an unforced call 1 ms later — well inside the
15-second TTL — still issues a new HTTP request (`requested = true`), because
`fetchNodes` also requires the cache to be non-empty before serving from it. -/
theorem C9_counterexample :
    (fetchNodes ⟨["old"], 0⟩ true 100 []).state = ⟨[], 100⟩ ∧
    (fetchNodes ⟨["old"], 0⟩ true 100 []).requested = true ∧
    (fetchNodes (fetchNodes ⟨["old"], 0⟩ true 100 []).state false 101 ["n2"]).requested
      = true := by
  refine ⟨by decide, by decide, by decide⟩

/-- C9 (amended): an unforced `fetchNodes` within the 15-second TTL returns the
cached list without issuing a request provided the cache is non-empty; when
forced, when the TTL has expired, or when the cache is empty, a fresh GET is
performed and the cache is replaced by the server's list. -/
theorem C9_fetchNodes_cache (s : NodesState) (force : Bool) (now : Nat)
    (server : List String) :
    (force = false → s.nodesCache ≠ [] → now - s.nodesCacheTime < CACHE_TTL_MS →
      fetchNodes s force now server
        = { result := s.nodesCache, state := s, requested := false }) ∧
    (force = true ∨ s.nodesCache = [] ∨ CACHE_TTL_MS ≤ now - s.nodesCacheTime →
      fetchNodes s force now server
        = { result := server,
            state := { nodesCache := server, nodesCacheTime := now },
            requested := true }) := by
  constructor
  · intro hf hc httl
    have hlen : 0 < s.nodesCache.length := List.length_pos.2 hc
    simp [fetchNodes, hf, hlen, httl]
  · intro h
    have hcond : ¬(force = false ∧ 0 < s.nodesCache.length ∧
        now - s.nodesCacheTime < CACHE_TTL_MS) := by
      rcases h with h | h | h
      · rintro ⟨hf, -, -⟩; rw [h] at hf; cases hf
      · rintro ⟨-, hl, -⟩; rw [h] at hl; simp at hl
      · rintro ⟨-, -, httl⟩; omega
    simp [fetchNodes, hcond]

/-- Witness for `C9_fetchNodes_cache` at a concrete cache state. -/
theorem C9_fetchNodes_cache_witness :
    (((false : Bool) = false → (["n1"] : List String) ≠ [] → (105 : Nat) - 100 < CACHE_TTL_MS →
      fetchNodes ⟨["n1"], 100⟩ false 105 ["n9"]
        = { result := ["n1"], state := ⟨["n1"], 100⟩, requested := false }) ∧
     ((false : Bool) = true ∨ (["n1"] : List String) = [] ∨ CACHE_TTL_MS ≤ (105 : Nat) - 100 →
      fetchNodes ⟨["n1"], 100⟩ false 105 ["n9"]
        = { result := ["n9"], state := { nodesCache := ["n9"], nodesCacheTime := 105 },
            requested := true })) ∧
    fetchNodes ⟨["n1"], 100⟩ false 105 ["n9"]
      = { result := ["n1"], state := ⟨["n1"], 100⟩, requested := false } :=
  ⟨C9_fetchNodes_cache ⟨["n1"], 100⟩ false 105 ["n9"],
   (C9_fetchNodes_cache ⟨["n1"], 100⟩ false 105 ["n9"]).1 rfl (by decide) (by decide)⟩

/-! ## Helper lemmas: task-pool maps -/

theorem length_mapSet_le (m : List QTask) (t : QTask) :
    (mapSet m t).length ≤ m.length + 1 := by
  unfold mapSet
  by_cases h : mapHas m t.taskId
  · rw [if_pos h]
    simp
  · rw [if_neg h]
    simp

theorem length_mapDelete_le (m : List QTask) (tid : String) :
    (mapDelete m tid).length ≤ m.length := by
  unfold mapDelete
  exact List.length_filter_le _ m

theorem mapGet_taskId {m : List QTask} {tid : String} {t : QTask}
    (h : mapGet m tid = some t) : t.taskId = tid := by
  have := List.find?_some h
  simpa using this

theorem find?_mapReplace (m : List QTask) (t : QTask)
    (h : (m.find? fun x => x.taskId == t.taskId).isSome) :
    ((m.map fun x => if x.taskId == t.taskId then t else x).find?
        fun x => x.taskId == t.taskId) = some t := by
  induction m with
  | nil => simp at h
  | cons x xs ih =>
    simp only [List.map_cons]
    by_cases hx : (x.taskId == t.taskId) = true
    · rw [if_pos hx, List.find?_cons]
      simp
    · have hx' : (x.taskId == t.taskId) = false := by simpa using hx
      rw [if_neg hx, List.find?_cons, hx']
      rw [List.find?_cons, hx'] at h
      exact ih h

theorem mapGet_mapSet_self (m : List QTask) (t : QTask) :
    mapGet (mapSet m t) t.taskId = some t := by
  unfold mapSet
  by_cases h : mapHas m t.taskId
  · rw [if_pos h]
    exact find?_mapReplace m t h
  · rw [if_neg h]
    unfold mapHas mapGet at h
    have hnone : (m.find? fun x => x.taskId == t.taskId) = none :=
      Option.not_isSome_iff_eq_none.1 h
    unfold mapGet
    rw [List.find?_append, hnone]
    simp [List.find?_cons]

theorem mapGet_mapSet_ne (m : List QTask) (t : QTask) (tid : String)
    (h : t.taskId ≠ tid) :
    mapGet (mapSet m t) tid = mapGet m tid := by
  have hbt : (t.taskId == tid) = false := by simpa using h
  unfold mapSet
  by_cases hh : mapHas m t.taskId
  · rw [if_pos hh]
    unfold mapGet
    clear hh
    induction m with
    | nil => simp
    | cons x xs ih =>
      simp only [List.map_cons]
      by_cases hx : (x.taskId == t.taskId) = true
      · have hxeq : x.taskId = t.taskId := by simpa using hx
        have hxb : (x.taskId == tid) = false := by
          rw [hxeq]; exact hbt
        rw [if_pos hx, List.find?_cons, List.find?_cons, hbt, hxb]
        exact ih
      · rw [if_neg hx, List.find?_cons, List.find?_cons]
        cases hxb : (x.taskId == tid) with
        | true => rfl
        | false => exact ih
  · rw [if_neg hh]
    unfold mapGet
    rw [List.find?_append]
    cases hf : m.find? fun x => x.taskId == tid with
    | some v => simp
    | none => simp [List.find?_cons, hbt]

theorem mapGet_mapDelete_self (m : List QTask) (tid : String) :
    mapGet (mapDelete m tid) tid = none := by
  unfold mapDelete mapGet
  induction m with
  | nil => simp
  | cons x xs ih =>
    by_cases hx : (x.taskId != tid) = true
    · have hxx : (x.taskId == tid) = false := by
        simpa [bne] using hx
      simp [List.filter_cons, hx, List.find?_cons, hxx, ih]
    · simp [List.filter_cons, hx, ih]

/-! ## Helper lemmas: dequeue loop -/

theorem dequeueLoop_length_le (now maxC : Nat) (q : List QTask) :
    ∀ d : List QTask, d.length ≤ maxC →
      (dequeueLoop now maxC q d).2.1.length ≤ maxC := by
  induction q with
  | nil => intro d h; simpa [dequeueLoop] using h
  | cons t rest ih =>
    intro d h
    by_cases hlt : d.length < maxC
    · simp only [dequeueLoop, if_pos hlt]
      apply ih
      have := length_mapSet_le d (runState t now)
      omega
    · simpa [dequeueLoop, if_neg hlt] using h

theorem dequeueLoop_get_none (now maxC : Nat) (q : List QTask) (tid : String)
    (hq : tid ∉ q.map QTask.taskId) :
    ∀ d : List QTask, mapGet d tid = none →
      mapGet (dequeueLoop now maxC q d).2.1 tid = none := by
  induction q with
  | nil => intro d hd; simpa [dequeueLoop] using hd
  | cons t rest ih =>
    simp only [List.map_cons, List.mem_cons, not_or] at hq
    intro d hd
    by_cases hlt : d.length < maxC
    · simp only [dequeueLoop, if_pos hlt]
      apply ih hq.2
      rw [mapGet_mapSet_ne]
      · exact hd
      · exact fun h => hq.1 h.symm
    · simpa [dequeueLoop, if_neg hlt] using hd

theorem dequeueLoop_frames_taskIds (now maxC : Nat) (q : List QTask) :
    ∀ d : List QTask, ∀ f ∈ (dequeueLoop now maxC q d).2.2,
      f.frameTaskId ∈ q.map QTask.taskId := by
  induction q with
  | nil => intro d f hf; simp [dequeueLoop] at hf
  | cons t rest ih =>
    intro d f hf
    by_cases hlt : d.length < maxC
    · simp only [dequeueLoop, if_pos hlt, List.mem_cons] at hf
      rcases hf with rfl | hf
      · simp [Frame.frameTaskId]
      · simp only [List.map_cons, List.mem_cons]
        exact Or.inr (ih _ f hf)
    · simp [dequeueLoop, if_neg hlt] at hf

theorem dequeueLoop_queue_not_mem (now maxC : Nat) (q : List QTask) (tid : String)
    (hq : tid ∉ q.map QTask.taskId) :
    ∀ d : List QTask, tid ∉ (dequeueLoop now maxC q d).1.map QTask.taskId := by
  induction q with
  | nil => intro d; simp [dequeueLoop]
  | cons t rest ih =>
    intro d
    simp only [List.map_cons, List.mem_cons, not_or] at hq
    by_cases hlt : d.length < maxC
    · simp only [dequeueLoop, if_pos hlt]
      exact ih hq.2 _
    · simp only [dequeueLoop, if_neg hlt]
      simp only [List.map_cons, List.mem_cons, not_or]
      exact ⟨hq.1, hq.2⟩

theorem dequeueLoop_filter_nil (now maxC : Nat) (q d : List QTask) (tid : String)
    (hq : tid ∉ q.map QTask.taskId) (pred : Frame → Bool)
    (hpred : ∀ f, pred f = true → f.frameTaskId = tid) :
    ((dequeueLoop now maxC q d).2.2).filter pred = [] := by
  rw [List.filter_eq_nil_iff]
  intro f hf hp
  exact hq (hpred f hp ▸ dequeueLoop_frames_taskIds now maxC q d f hf)

theorem removeFirst_ids_subset (tid2 : String) (l : List QTask) (tid : String)
    (h : tid ∉ l.map QTask.taskId) :
    tid ∉ (removeFirst tid2 l).map QTask.taskId := by
  induction l with
  | nil => simp [removeFirst]
  | cons x xs ih =>
    simp only [List.map_cons, List.mem_cons, not_or] at h
    by_cases hx : (x.taskId == tid2) = true
    · simp only [removeFirst, if_pos hx]
      exact h.2
    · rw [removeFirst, if_neg (by simpa using hx)]
      intro hmem
      rw [List.map_cons, List.mem_cons] at hmem
      rcases hmem with h1 | h2
      · exact h.1 h1
      · exact ih h.2 h2

/-! ## Helper lemmas: step preservation -/

theorem stepFn_dispatch_bound (s : QueueState) (a : QAction)
    (h : DispatchInv s) (hok : okAct s a = true) :
    DispatchInv (stepFn s a).1 := by
  unfold DispatchInv at h ⊢
  cases a with
  | enqueue tid fromN ins pri now =>
    simp only [stepFn, enqueueFn]
    by_cases hlt : s.dispatching.length < s.maxConcurrent
    · rw [if_pos hlt]
      dsimp only [startTaskSync]
      refine le_trans (length_mapSet_le _ _) ?_
      omega
    · rw [if_neg hlt]
      exact h
  | dispatchOk tid sk now =>
    simp only [stepFn, dispatchOkFn]
    cases hg : mapGet s.dispatching tid with
    | none => exact h
    | some t =>
      simp only []
      apply dequeueLoop_length_le
      have := length_mapDelete_le s.dispatching tid
      omega
  | dispatchFail tid err now =>
    simp only [stepFn, dispatchFailFn]
    cases hg : mapGet s.dispatching tid with
    | none => exact h
    | some t =>
      simp only [finalizeTask]
      apply dequeueLoop_length_le
      have := length_mapDelete_le s.dispatching tid
      omega
  | waitDone tid w now =>
    simp only [stepFn, waitDoneFn]
    cases hg : mapGet s.inflight tid with
    | none => exact h
    | some t =>
      simp only [finalizeTask]
      exact dequeueLoop_length_le now s.maxConcurrent s.queue s.dispatching h
  | cancel tid now =>
    simp only [stepFn, cancelFn]
    cases hf : qfind tid s.queue with
    | some t => exact h
    | none =>
      cases hr : (mapGet s.dispatching tid).orElse fun _ => mapGet s.inflight tid with
      | some r =>
        by_cases hsk : r.sessionKey.isSome
        · simp only [if_pos hsk]
          exact h
        · simp only [if_neg hsk]
          exact h
      | none => exact h
  | setMax n =>
    simp only [stepFn]
    simp only [okAct, decide_eq_true_eq] at hok
    exact hok

theorem runQueue_dispatch_bound (acts : List QAction) (s : QueueState)
    (h : DispatchInv s) (hok : okActs s acts = true) :
    DispatchInv (runQueue s acts).1 := by
  induction acts generalizing s with
  | nil => simpa [runQueue] using h
  | cons a rest ih =>
    simp only [okActs, Bool.and_eq_true] at hok
    simp only [runQueue]
    exact ih _ (stepFn_dispatch_bound s a h hok.1) hok.2

/-! ## C2 — dispatch slots bounded by maxConcurrent -/

/-- The concrete run that violates the claim: two tasks enter dispatch slots
under the default bound of 3, then an incoming `config.maxConcurrent = 1`
lowers the bound below the occupied slots. -/
def C2trace : List QAction :=
  [.enqueue "t1" "p" "ls" "normal" 1, .enqueue "t2" "p" "echo" "normal" 2,
   .setMax 1]

/-- C2 counterexample: the state reached from a fresh queue by `C2trace` has
two tasks in the dispatching pool but `maxConcurrent = 1`: a `setMaxConcurrent`
step can lower the bound below the current dispatching count, so
`|dispatching| ≤ maxConcurrent` does not hold at every reachable state. -/
theorem C2_counterexample :
    (runQueue initQueue C2trace).1.dispatching.length = 2 ∧
    (runQueue initQueue C2trace).1.maxConcurrent = 1 ∧
    ¬ DispatchInv (runQueue initQueue C2trace).1 := by
  refine ⟨by decide, by decide, ?_⟩
  unfold DispatchInv
  decide

/-- C2 (amended): starting from any state satisfying `|dispatching| ≤
maxConcurrent`, every interleaving of enqueue, dispatch completion, dispatch
failure, wait completion, cancellation and `setMaxConcurrent` steps preserves
`|dispatching| ≤ maxConcurrent`, provided no `setMaxConcurrent` step lowers the
clamped bound below the number of tasks then dispatching.  Moreover a task that
completes its dispatch leaves the dispatching pool in the very step that adds
it (with its new session key) to the inflight pool. -/
theorem C2_dispatch_bound (s : QueueState) (acts : List QAction)
    (tid sk : String) (now : Nat) (t : QTask)
    (hInv : DispatchInv s) (hok : okActs s acts = true)
    (hd : mapGet s.dispatching tid = some t)
    (hq : tid ∉ s.queue.map QTask.taskId) :
    DispatchInv (runQueue s acts).1 ∧
    mapGet (dispatchOkFn s tid sk now).1.dispatching tid = none ∧
    mapGet (dispatchOkFn s tid sk now).1.inflight tid
      = some (setSessionKey t sk) := by
  refine ⟨runQueue_dispatch_bound acts s hInv hok, ?_, ?_⟩
  · simp only [dispatchOkFn, hd]
    exact dequeueLoop_get_none now s.maxConcurrent s.queue tid hq _
      (mapGet_mapDelete_self s.dispatching tid)
  · simp only [dispatchOkFn, hd]
    have hkey0 : t.taskId = tid := mapGet_taskId hd
    have hkey : (setSessionKey t sk).taskId = tid := hkey0
    rw [← hkey]
    exact mapGet_mapSet_self s.inflight (setSessionKey t sk)

/-- A task sitting in a dispatch slot, for witnesses. -/
def exDispTask : QTask :=
  { mkQueuedTask "t1" "p" "ls" "normal" 0 with
    status := QStatus.running, startedAt := some 0 }

/-- A queue state with one dispatching task, for witnesses. -/
def exDispState : QueueState := { initQueue with dispatching := [exDispTask] }

/-- Witness for `C2_dispatch_bound` at a concrete state and run. -/
theorem C2_dispatch_bound_witness :
    DispatchInv exDispState ∧
    okActs exDispState [QAction.setMax 2, QAction.enqueue "t2" "p" "x" "normal" 3] = true ∧
    mapGet exDispState.dispatching "t1" = some exDispTask ∧
    ("t1" ∉ exDispState.queue.map QTask.taskId) ∧
    (DispatchInv (runQueue exDispState
        [QAction.setMax 2, QAction.enqueue "t2" "p" "x" "normal" 3]).1 ∧
     mapGet (dispatchOkFn exDispState "t1" "sk" 5).1.dispatching "t1" = none ∧
     mapGet (dispatchOkFn exDispState "t1" "sk" 5).1.inflight "t1"
       = some (setSessionKey exDispTask "sk")) := by
  refine ⟨?_, by decide, by decide, by decide, ?_⟩
  · unfold DispatchInv
    decide
  · exact C2_dispatch_bound exDispState
      [QAction.setMax 2, QAction.enqueue "t2" "p" "x" "normal" 3]
      "t1" "sk" 5 exDispTask (by unfold DispatchInv; decide) (by decide)
      (by decide) (by decide)

/-! ## Helper lemmas: unfolded forms of the queue operations -/

theorem finalizeTask_eq (s : QueueState) (t : QTask) (now : Nat) :
    finalizeTask s t now
      = ({ s with
            queue := (dequeueLoop now s.maxConcurrent s.queue s.dispatching).1,
            dispatching := (dequeueLoop now s.maxConcurrent s.queue s.dispatching).2.1,
            inflight := mapDelete s.inflight t.taskId,
            completed := pushCompleted s.completed (stampCompleted t now) },
         Frame.resultFrame t.taskId t.fromNodeId
           { success := t.status == QStatus.completed, result := t.result,
             error := t.error }
         :: (dequeueLoop now s.maxConcurrent s.queue s.dispatching).2.2) := rfl

theorem dispatchOkFn_eq (s : QueueState) (tid sk : String) (now : Nat) (t : QTask)
    (hget : mapGet s.dispatching tid = some t) :
    dispatchOkFn s tid sk now
      = ({ s with
            queue := (dequeueLoop now s.maxConcurrent s.queue
              (mapDelete s.dispatching tid)).1,
            dispatching := (dequeueLoop now s.maxConcurrent s.queue
              (mapDelete s.dispatching tid)).2.1,
            inflight := mapSet s.inflight (setSessionKey t sk) },
         (dequeueLoop now s.maxConcurrent s.queue
           (mapDelete s.dispatching tid)).2.2) := by
  unfold dispatchOkFn
  rw [hget]

theorem dispatchFailFn_eq (s : QueueState) (tid err : String) (now : Nat)
    (t : QTask) (hget : mapGet s.dispatching tid = some t) :
    dispatchFailFn s tid err now
      = finalizeTask { s with dispatching := mapDelete s.dispatching tid }
          (applyDispatchFail t err) now := by
  unfold dispatchFailFn
  rw [hget]

theorem waitDoneFn_eq (s : QueueState) (tid : String) (w : ResultPayload)
    (now : Nat) (t : QTask) (hget : mapGet s.inflight tid = some t) :
    waitDoneFn s tid w now = finalizeTask s (applyWait t w) now := by
  unfold waitDoneFn
  rw [hget]

/-! ## C3 — one running ack then one result per started task -/

/-- C3: for a task whose id is not among the waiting tasks, a full pass of
`startTask` — whether the agent dispatch succeeds and the wait later resolves,
or the dispatch fails — emits, among the frames concerning that task, exactly
one `task_ack{running}` to its originator followed by exactly one `result`
frame to its originator, in that order.  (The other frames it emits belong to
waiting tasks promoted by `dequeue`.) -/
theorem C3_ack_then_result (s : QueueState) (t : QTask) (now : Nat)
    (o : DispatchOutcome) (hq : t.taskId ∉ s.queue.map QTask.taskId) :
    ∃ p, ((startTaskFull s t now o).2).filter
        (fun f => f.frameTaskId == t.taskId)
      = [Frame.taskAck t.taskId t.fromNodeId AckKind.ackRunning none,
         Frame.resultFrame t.taskId t.fromNodeId p] := by
  have hpred : ∀ f : Frame, (f.frameTaskId == t.taskId) = true →
      f.frameTaskId = t.taskId := fun f hf => by simpa using hf
  cases o with
  | ok sk w t2 t3 =>
    have hg1 : mapGet (mapSet s.dispatching (runState t now)) t.taskId
        = some (runState t now) :=
      mapGet_mapSet_self s.dispatching (runState t now)
    have hg2 : mapGet (mapSet s.inflight (setSessionKey (runState t now) sk))
          t.taskId
        = some (setSessionKey (runState t now) sk) :=
      mapGet_mapSet_self s.inflight (setSessionKey (runState t now) sk)
    dsimp only [startTaskFull, startTaskSync]
    rw [dispatchOkFn_eq _ _ _ _ _ hg1]
    dsimp only []
    rw [waitDoneFn_eq _ _ _ _ _ hg2, finalizeTask_eq]
    dsimp only []
    refine ⟨⟨(applyWait (setSessionKey (runState t now) sk) w).status == QStatus.completed, (applyWait (setSessionKey (runState t now) sk) w).result, (applyWait (setSessionKey (runState t now) sk) w).error⟩, ?_⟩
    have hq2 : t.taskId ∉ ((dequeueLoop t2 s.maxConcurrent s.queue
        (mapDelete (mapSet s.dispatching (runState t now)) t.taskId)).1).map
          QTask.taskId :=
      dequeueLoop_queue_not_mem t2 s.maxConcurrent s.queue t.taskId hq _
    have hnil1 := dequeueLoop_filter_nil t2 s.maxConcurrent s.queue
      (mapDelete (mapSet s.dispatching (runState t now)) t.taskId) t.taskId hq
      (fun f => f.frameTaskId == t.taskId) hpred
    have hnil2 := dequeueLoop_filter_nil t3 s.maxConcurrent
      (dequeueLoop t2 s.maxConcurrent s.queue
        (mapDelete (mapSet s.dispatching (runState t now)) t.taskId)).1
      (dequeueLoop t2 s.maxConcurrent s.queue
        (mapDelete (mapSet s.dispatching (runState t now)) t.taskId)).2.1
      t.taskId hq2 (fun f => f.frameTaskId == t.taskId) hpred
    simp only [Frame.frameTaskId, applyWait, setSessionKey, runState]
      at hnil1 hnil2
    simp [List.filter_append, List.filter_cons, hnil1, hnil2, Frame.frameTaskId,
      applyWait, setSessionKey, runState]
  | fail err t2 =>
    have hg1 : mapGet (mapSet s.dispatching (runState t now)) t.taskId
        = some (runState t now) :=
      mapGet_mapSet_self s.dispatching (runState t now)
    dsimp only [startTaskFull, startTaskSync]
    rw [dispatchFailFn_eq _ _ _ _ _ hg1, finalizeTask_eq]
    dsimp only []
    refine ⟨⟨(applyDispatchFail (runState t now) err).status == QStatus.completed, (applyDispatchFail (runState t now) err).result, (applyDispatchFail (runState t now) err).error⟩, ?_⟩
    have hnil1 := dequeueLoop_filter_nil t2 s.maxConcurrent s.queue
      (mapDelete (mapSet s.dispatching (runState t now)) t.taskId) t.taskId hq
      (fun f => f.frameTaskId == t.taskId) hpred
    simp only [Frame.frameTaskId, applyDispatchFail, runState] at hnil1
    simp [List.filter_append, List.filter_cons, hnil1, Frame.frameTaskId,
      applyDispatchFail, runState]

/-- Witness for `C3_ack_then_result` on a fresh queue and a failing dispatch. -/
theorem C3_ack_then_result_witness :
    ((mkQueuedTask "t1" "p" "ls" "normal" 1).taskId
      ∉ initQueue.queue.map QTask.taskId) ∧
    (∃ p, ((startTaskFull initQueue (mkQueuedTask "t1" "p" "ls" "normal" 1) 2
        (DispatchOutcome.fail "boom" 3)).2).filter
        (fun f => f.frameTaskId == (mkQueuedTask "t1" "p" "ls" "normal" 1).taskId)
      = [Frame.taskAck (mkQueuedTask "t1" "p" "ls" "normal" 1).taskId
           (mkQueuedTask "t1" "p" "ls" "normal" 1).fromNodeId
           AckKind.ackRunning none,
         Frame.resultFrame (mkQueuedTask "t1" "p" "ls" "normal" 1).taskId
           (mkQueuedTask "t1" "p" "ls" "normal" 1).fromNodeId p]) :=
  ⟨by decide,
   C3_ack_then_result initQueue (mkQueuedTask "t1" "p" "ls" "normal" 1) 2
     (DispatchOutcome.fail "boom" 3) (by decide)⟩

/-! ## Helper lemmas: no running ack for an absent task -/

theorem runningAck_taskId (tid : String) :
    ∀ f : Frame, isRunningAckOf tid f = true → f.frameTaskId = tid := by
  intro f hf
  cases f with
  | taskAck tid2 toN k pos =>
    cases k with
    | ackQueued => simp [isRunningAckOf] at hf
    | ackRunning =>
      simp only [isRunningAckOf] at hf
      simpa [Frame.frameTaskId] using hf
  | resultFrame tid2 toN p => simp [isRunningAckOf] at hf

theorem stepFn_no_running_ack (s : QueueState) (a : QAction) (tid : String)
    (hq : tid ∉ s.queue.map QTask.taskId) (ha : isEnqueueOf tid a = false) :
    (stepFn s a).2.filter (isRunningAckOf tid) = [] ∧
    tid ∉ (stepFn s a).1.queue.map QTask.taskId := by
  cases a with
  | enqueue tid2 fromN ins pri now =>
    have htid2 : (tid2 == tid) = false := by
      simpa [isEnqueueOf] using ha
    simp only [stepFn, enqueueFn]
    by_cases hlt : s.dispatching.length < s.maxConcurrent
    · rw [if_pos hlt]
      dsimp only [startTaskSync]
      refine ⟨?_, hq⟩
      simp [List.filter_cons, isRunningAckOf, mkQueuedTask, htid2]
    · rw [if_neg hlt]
      dsimp only []
      refine ⟨?_, ?_⟩
      · simp [List.filter_cons, isRunningAckOf]
      · simp only [List.map_append, List.mem_append, not_or]
        refine ⟨hq, ?_⟩
        simp only [mkQueuedTask, List.map_cons, List.map_nil,
          List.mem_singleton]
        intro h
        rw [h] at htid2
        simp at htid2
  | dispatchOk tid2 sk now =>
    cases hget : mapGet s.dispatching tid2 with
    | none =>
      refine ⟨?_, ?_⟩
      · simp [stepFn, dispatchOkFn, hget]
      · simpa [stepFn, dispatchOkFn, hget] using hq
    | some t =>
      simp only [stepFn]
      rw [dispatchOkFn_eq _ _ _ _ _ hget]
      dsimp only []
      refine ⟨?_, ?_⟩
      · exact dequeueLoop_filter_nil now s.maxConcurrent s.queue _ tid hq _
          (runningAck_taskId tid)
      · exact dequeueLoop_queue_not_mem now s.maxConcurrent s.queue tid hq _
  | dispatchFail tid2 err now =>
    cases hget : mapGet s.dispatching tid2 with
    | none =>
      refine ⟨?_, ?_⟩
      · simp [stepFn, dispatchFailFn, hget]
      · simpa [stepFn, dispatchFailFn, hget] using hq
    | some t =>
      simp only [stepFn]
      rw [dispatchFailFn_eq _ _ _ _ _ hget, finalizeTask_eq]
      dsimp only []
      have hnil := dequeueLoop_filter_nil now s.maxConcurrent s.queue
        (mapDelete s.dispatching tid2) tid hq (isRunningAckOf tid)
        (runningAck_taskId tid)
      refine ⟨?_, ?_⟩
      · simp [List.filter_cons, isRunningAckOf, hnil]
      · exact dequeueLoop_queue_not_mem now s.maxConcurrent s.queue tid hq _
  | waitDone tid2 w now =>
    cases hget : mapGet s.inflight tid2 with
    | none =>
      refine ⟨?_, ?_⟩
      · simp [stepFn, waitDoneFn, hget]
      · simpa [stepFn, waitDoneFn, hget] using hq
    | some t =>
      simp only [stepFn]
      rw [waitDoneFn_eq _ _ _ _ _ hget, finalizeTask_eq]
      dsimp only []
      have hnil := dequeueLoop_filter_nil now s.maxConcurrent s.queue
        s.dispatching tid hq (isRunningAckOf tid) (runningAck_taskId tid)
      refine ⟨?_, ?_⟩
      · simp [List.filter_cons, isRunningAckOf, hnil]
      · exact dequeueLoop_queue_not_mem now s.maxConcurrent s.queue tid hq _
  | cancel tid2 now =>
    simp only [stepFn, cancelFn]
    cases hf : qfind tid2 s.queue with
    | some t =>
      dsimp only []
      refine ⟨?_, ?_⟩
      · simp [List.filter_cons, isRunningAckOf]
      · exact removeFirst_ids_subset tid2 s.queue tid hq
    | none =>
      cases hr : (mapGet s.dispatching tid2).orElse
          fun _ => mapGet s.inflight tid2 with
      | some r =>
        by_cases hsk : r.sessionKey.isSome
        · simp only [if_pos hsk]
          exact ⟨rfl, hq⟩
        · simp only [if_neg hsk]
          exact ⟨rfl, hq⟩
      | none => exact ⟨rfl, hq⟩
  | setMax n => exact ⟨rfl, hq⟩

theorem runQueue_no_running_ack (acts : List QAction) (s : QueueState)
    (tid : String) (hq : tid ∉ s.queue.map QTask.taskId)
    (hacts : acts.all (fun a => !(isEnqueueOf tid a)) = true) :
    (runQueue s acts).2.filter (isRunningAckOf tid) = [] := by
  induction acts generalizing s with
  | nil => simp [runQueue]
  | cons a rest ih =>
    simp only [List.all_cons, Bool.and_eq_true, Bool.not_eq_true'] at hacts
    obtain ⟨h1, h2⟩ := stepFn_no_running_ack s a tid hq hacts.1
    simp only [runQueue, List.filter_append, h1, List.nil_append]
    exact ih _ h2 hacts.2

/-! ## C4 — cancelling a task still in the waiting queue -/

/-- C4 counterexample: the spec claims the synthesized result carries
`error: "cancelled"`.  Cancelling the waiting task `t9` emits exactly one
result frame, but its error string is the fixed message `"任务已被取消"`, not
the literal `"cancelled"`. -/
theorem C4_counterexample :
    (cancelFn exQState "t9" 6).frames
      = [Frame.resultFrame "t9" "parent"
          { success := false, result := none, error := some "任务已被取消" }] ∧
    (some "任务已被取消" : Option String) ≠ some "cancelled" := by
  refine ⟨by decide, by decide⟩

/-- C4 (amended): cancelling a task that is still in the waiting queue removes
it from the queue, marks it cancelled, sends exactly one synthesized result
frame with `success: false` and the fixed cancellation message `"任务已被取消"`
(not the literal string `"cancelled"`) to its `fromNodeId`, and returns `true`;
and along any subsequent run that never re-enqueues that task id, no
`task_ack{running}` frame is ever emitted for it. -/
theorem C4_cancel_queued (s : QueueState) (tid : String) (now : Nat) (t : QTask)
    (acts : List QAction)
    (hfind : qfind tid s.queue = some t)
    (hrest : tid ∉ (removeFirst tid s.queue).map QTask.taskId)
    (hacts : acts.all (fun a => !(isEnqueueOf tid a)) = true) :
    (cancelFn s tid now).ok = true ∧
    (cancelFn s tid now).removed = some (markCancelled t now) ∧
    (markCancelled t now).status = QStatus.cancelled ∧
    (cancelFn s tid now).state = { s with queue := removeFirst tid s.queue } ∧
    (cancelFn s tid now).frames
      = [Frame.resultFrame tid t.fromNodeId
          { success := false, result := none, error := some cancelMessage }] ∧
    (runQueue (cancelFn s tid now).state acts).2.filter (isRunningAckOf tid)
      = [] := by
  have hc : cancelFn s tid now
      = { ok := true, state := { s with queue := removeFirst tid s.queue },
          frames := [Frame.resultFrame tid t.fromNodeId
            { success := false, result := none, error := some cancelMessage }],
          removed := some (markCancelled t now) } := by
    unfold cancelFn
    rw [hfind]
  rw [hc]
  refine ⟨rfl, rfl, rfl, rfl, rfl, ?_⟩
  exact runQueue_no_running_ack acts _ tid hrest hacts

/-- Witness for `C4_cancel_queued` at the concrete fixture queue. -/
theorem C4_cancel_queued_witness :
    qfind "t9" exQState.queue = some (mkQueuedTask "t9" "parent" "ls" "normal" 5) ∧
    ("t9" ∉ (removeFirst "t9" exQState.queue).map QTask.taskId) ∧
    ([QAction.enqueue "t8" "p" "x" "normal" 7].all
      (fun a => !(isEnqueueOf "t9" a)) = true) ∧
    ((cancelFn exQState "t9" 6).ok = true ∧
     (cancelFn exQState "t9" 6).removed
       = some (markCancelled (mkQueuedTask "t9" "parent" "ls" "normal" 5) 6) ∧
     (markCancelled (mkQueuedTask "t9" "parent" "ls" "normal" 5) 6).status
       = QStatus.cancelled ∧
     (cancelFn exQState "t9" 6).state
       = { exQState with queue := removeFirst "t9" exQState.queue } ∧
     (cancelFn exQState "t9" 6).frames
       = [Frame.resultFrame "t9"
           (mkQueuedTask "t9" "parent" "ls" "normal" 5).fromNodeId
           { success := false, result := none, error := some cancelMessage }] ∧
     (runQueue (cancelFn exQState "t9" 6).state
        [QAction.enqueue "t8" "p" "x" "normal" 7]).2.filter
          (isRunningAckOf "t9") = []) :=
  ⟨by decide, by decide, by decide,
   C4_cancel_queued exQState "t9" 6 (mkQueuedTask "t9" "parent" "ls" "normal" 5)
     [QAction.enqueue "t8" "p" "x" "normal" 7]
     (by decide) (by decide) (by decide)⟩

/-! ## C10 — a dispatching task without a session key cannot be cancelled -/

/-- A queue state whose single task occupies a dispatch slot with its
`sessionKey` still unset (its `dispatchTaskToAgent` call has not resolved). -/
def exPendingState : QueueState :=
  { initQueue with
    dispatching := [runState (mkQueuedTask "t9" "parent" "ls" "normal" 5) 5] }

/-- C10: for a task that occupies a dispatch slot but whose
`dispatchTaskToAgent` call has not yet resolved — so its `sessionKey` is still
unset — `cancel` returns `false` and leaves the queue state untouched, emitting
nothing: such a task cannot be cancelled even though it is neither queued nor
terminal, because `sessionKey` is assigned only after the dispatch round-trip
returns. -/
theorem C10_cancel_unset_session (s : QueueState) (tid : String) (now : Nat)
    (t : QTask) (hq : qfind tid s.queue = none)
    (hd : mapGet s.dispatching tid = some t)
    (hsk : t.sessionKey = none) :
    cancelFn s tid now
      = { ok := false, state := s, frames := [], removed := none } := by
  unfold cancelFn
  rw [hq, hd]
  simp [Option.orElse, hsk]

/-- Witness for `C10_cancel_unset_session` at the concrete pending state. -/
theorem C10_cancel_unset_session_witness :
    qfind "t9" exPendingState.queue = none ∧
    mapGet exPendingState.dispatching "t9"
      = some (runState (mkQueuedTask "t9" "parent" "ls" "normal" 5) 5) ∧
    (runState (mkQueuedTask "t9" "parent" "ls" "normal" 5) 5).sessionKey = none ∧
    cancelFn exPendingState "t9" 6
      = { ok := false, state := exPendingState, frames := [], removed := none } :=
  ⟨by decide, by decide, by decide,
   C10_cancel_unset_session exPendingState "t9" 6
     (runState (mkQueuedTask "t9" "parent" "ls" "normal" 5) 5)
     (by decide) (by decide) (by decide)⟩

end Hub
